import Mathlib

/-
  Verification development for the `splitter` audio-pipeline repository.

  The definitions below are shallow embeddings of the Go source:
  strings are Lean `String`s (processed as `List Char`), float64
  percentages are modelled as `ℚ` (all values that actually flow
  through the progress pipeline are small decimal fractions, which
  float64 represents exactly), machine state is passed explicitly, and
  channel sends are modelled as list operations.
-/

/- ===================== Shared string helpers ===================== -/

/-- Whitespace set used by Go `strings.TrimSpace` (ASCII part of
`unicode.IsSpace`; the exotic Unicode space characters never occur in the
subprocess output being parsed). -/
def isGoSpace (c : Char) : Bool :=
  c == ' ' || c == '\t' || c == '\n' || c == '\r' || c == '\x0b' || c == '\x0c'

/-- Whitespace class of `\s` in Go's RE2 regexp syntax: `[\t\n\f\r ]`. -/
def isRegexSpace (c : Char) : Bool :=
  c == '\t' || c == '\n' || c == '\x0c' || c == '\r' || c == ' '

/-- Go `strings.TrimSpace` on a character list. -/
def goTrimSpace (cs : List Char) : List Char :=
  ((cs.dropWhile isGoSpace).reverse.dropWhile isGoSpace).reverse

/-- Whether `pat` occurs at the start of `s` (Go `strings.HasPrefix`). -/
def startsWithL : List Char → List Char → Bool
  | _, [] => true
  | [], _ :: _ => false
  | a :: as, b :: bs => a == b && startsWithL as bs

/-- Whether `pat` occurs anywhere inside `s` (Go `strings.Contains`). -/
def containsSub : List Char → List Char → Bool
  | [], pat => pat.isEmpty
  | s@(_ :: rest), pat => startsWithL s pat || containsSub rest pat

/-- Numeric value of a list of decimal digit characters. -/
def digitsVal (ds : List Char) : Nat :=
  ds.foldl (fun acc c => acc * 10 + (c.toNat - '0'.toNat)) 0

/-- Go `strings.Split(s, "\n")`: split at every newline, keeping empty
segments. -/
def splitOnNL : List Char → List (List Char)
  | [] => [[]]
  | c :: rest =>
    if c == '\n' then [] :: splitOnNL rest
    else
      match splitOnNL rest with
      | [] => [[c]]
      | h :: t => (c :: h) :: t

/-- Go `strings.Fields`: split around runs of whitespace, no empty fields. -/
def splitFields : List Char → List (List Char)
  | [] => []
  | c :: rest =>
    if isGoSpace c then splitFields rest
    else
      match splitFields rest with
      | [] => [[c]]
      | h :: t =>
        match rest with
        | [] => [[c]]
        | r :: _ => if isGoSpace r then [c] :: h :: t else (c :: h) :: t

/- ===================== Progress events ===================== -/

/-- ProgressEvent from the Go sources (`server.go`, `models`): the absent
`error` field of Go's zero value is the empty string. -/
structure ProgressEvent where
  trackID : String
  type : String
  status : String
  progress : ℚ
  error : String
deriving DecidableEq, Repr

/- ===================== Demucs output processing ===================== -/

/-- Recursion core of `stripAnsi`; the fuel argument (always at least the
length of the list when called through `stripAnsi`) makes the recursion
structural so that proofs can evaluate it. -/
def stripAnsiGo : Nat → List Char → List Char
  | 0, cs => cs
  | _ + 1, [] => []
  | fuel + 1, '\x1b' :: '[' :: rest2 =>
    (match rest2.dropWhile (fun d => d.isDigit || d == ';') with
     | 'm' :: rest3 => stripAnsiGo fuel rest3
     | _ => '\x1b' :: stripAnsiGo fuel ('[' :: rest2))
  | fuel + 1, c :: rest => c :: stripAnsiGo fuel rest

/-- Strip ANSI colour escapes, i.e. Go
`regexp.MustCompile("\x1b\\[[0-9;]*m").ReplaceAllString(line, "")`
(`src/demucs.go:162`, `src/server/worker/demucs.go:145`). A candidate match
starts at an escape character followed by `[`, a run of digits and
semicolons (maximal, since `m` is outside that class), and a closing `m`;
anything else is kept and the scan resumes at the next character. -/
def stripAnsi (cs : List Char) : List Char :=
  stripAnsiGo cs.length cs

/-- Leading integer percentage, i.e. the Go regex `^\s*(\d+)%` applied by
`processDemucsOutput` (`src/demucs.go:176`): optional whitespace, a maximal
digit run, then a literal `%`. -/
def leadingIntPercent (cs : List Char) : Option Nat :=
  let s1 := cs.dropWhile isRegexSpace
  let ds := s1.takeWhile Char.isDigit
  let rest := s1.dropWhile Char.isDigit
  if ds.isEmpty then none
  else
    match rest with
    | '%' :: _ => some (digitsVal ds)
    | _ => none

/-- Guard portion of `processDemucsOutput` (`src/demucs.go:166-186`): strip
ANSI escapes, trim, require a `%`, extract the leading integer percentage,
and range-check it. The parsed value is a `Nat`, so the Go check
`modelProgress < 0` is vacuous here (the regex only matches digit runs). -/
def demucsAccept (line : String) : Option Nat :=
  let cleanLine := goTrimSpace (stripAnsi line.toList)
  if ¬ (cleanLine.contains '%') then none
  else
    match leadingIntPercent cleanLine with
    | none => none
    | some p => if p > 100 then none else some p

/-- Mutable per-invocation parser state of `ProcessTrackWithDemucs`
(`src/demucs.go:160-161`): `currentModel` and `lastProgress`. -/
structure DemucsState where
  currentModel : Nat
  lastProgress : ℚ
deriving DecidableEq, Repr

/-- The `processDemucsOutput` closure of `src/demucs.go:165-213`: given one
carriage-return-separated update, returns the new parser state and the list
of events sent on the progress channel (empty or a singleton). -/
def processDemucsOutput (line trackID : String) (st : DemucsState) :
    DemucsState × List ProgressEvent :=
  match demucsAccept line with
  | none => (st, [])
  | some p =>
    let cm := if (p : ℚ) < st.lastProgress - 50 then st.currentModel + 1 else st.currentModel
    let baseProgress : ℚ := (cm : ℚ) * 25
    let overallProgress : ℚ := baseProgress + (p : ℚ) / 4
    let clamped : ℚ := if overallProgress > 100 then 100 else overallProgress
    (⟨cm, (p : ℚ)⟩, [⟨trackID, "demucs", "processing", clamped, ""⟩])

/-- The `processDemucsOutput` closure of `src/server/worker/demucs.go:148-197`:
identical guard and state update, but the unified value is computed by the
averaging loop over the four models. -/
def processDemucsOutputWorker (line trackID : String) (st : DemucsState) :
    DemucsState × List ProgressEvent :=
  match demucsAccept line with
  | none => (st, [])
  | some p =>
    let cm := if (p : ℚ) < st.lastProgress - 50 then st.currentModel + 1 else st.currentModel
    let totalProgress : ℚ :=
      (List.range 4).foldl
        (fun acc i => if i < cm then acc + 100 else if i = cm then acc + (p : ℚ) else acc) 0
    let overallProgress : ℚ := totalProgress / 4
    let clamped : ℚ := if overallProgress > 100 then 100 else overallProgress
    (⟨cm, (p : ℚ)⟩, [⟨trackID, "demucs", "processing", clamped, ""⟩])

/- ===================== yt-dlp download progress parsing ===================== -/

/-- Go `strconv.ParseFloat` restricted to plain decimal forms
`[+-]?digits[.digits]?` (the exponent, hexadecimal and infinity forms never
occur in yt-dlp percentage tokens). Returns `none` where Go reports an
error, including trailing garbage and a bare dot. -/
def parseFloatGo (cs : List Char) : Option ℚ :=
  let signed : ℚ × List Char :=
    match cs with
    | '+' :: r => (1, r)
    | '-' :: r => (-1, r)
    | r => (1, r)
  let ip := signed.2.takeWhile Char.isDigit
  let rest := signed.2.dropWhile Char.isDigit
  match rest with
  | [] => if ip.isEmpty then none else some (signed.1 * digitsVal ip)
  | '.' :: rest2 =>
    let fp := rest2.takeWhile Char.isDigit
    let rest3 := rest2.dropWhile Char.isDigit
    if rest3.isEmpty && !(ip.isEmpty && fp.isEmpty) then
      some (signed.1 * ((digitsVal ip : ℚ) + (digitsVal fp : ℚ) / (10 : ℚ) ^ fp.length))
    else none
  | _ => none

/-- Recursion over the whitespace-separated fields of a line, tracking the
field index: the Go loop body of `parseProgress`. A field qualifies when it
is not the first field (`i > 0`), ends in `%`, and the part before the `%`
parses as a float; the first qualifying field's value is returned. -/
def parseProgressFields : Nat → List (List Char) → ℚ
  | _, [] => -1
  | i, f :: rest =>
    if i > 0 && f.getLast? == some '%' then
      match parseFloatGo (f.dropLast) with
      | some v => v
      | none => parseProgressFields (i + 1) rest
    else parseProgressFields (i + 1) rest

/-- Go `parseProgress` (`src/unnamed/part_005:129-142`, worker package):
extracts the percentage from a yt-dlp output line, `-1` when none found. -/
def parseProgress (line : String) : ℚ :=
  parseProgressFields 0 (splitFields line.toList)

/-- Events published for a single yt-dlp stdout line by the scanning
goroutine of `DownloadTrackFromSpotifyWithProgress`
(`src/unnamed/part_005:98-118`, identical in `src/ytdlp.go`): lines
containing `[download]` and `%` whose parsed progress is `≥ 0` yield one
`downloading` event carrying the parsed value. -/
def downloadLineEvents (trackID : String) (line : String) : List ProgressEvent :=
  if containsSub line.toList "[download]".toList && line.toList.contains '%' then
    let progress := parseProgress line
    if progress ≥ 0 then [⟨trackID, "download", "downloading", progress, ""⟩] else []
  else []

/-- All events published by the download progress parser over a sequence of
stdout lines. -/
def downloadProgressEvents (trackID : String) (lines : List String) : List ProgressEvent :=
  (lines.map (downloadLineEvents trackID)).flatten

/- ===================== Credential cache ===================== -/

/-- Token fields of the monolithic `Server` (`src/server.go:180-181`),
with time as integer seconds. -/
structure TokenState where
  accessToken : String
  tokenExpiry : Int
deriving DecidableEq, Repr

/-- Spotify token endpoint response (`models.TokenResponse`). -/
structure TokenResponse where
  accessToken : String
  expiresIn : Int
deriving DecidableEq, Repr

/-- The 5-minute early-refresh skew of `getAccessToken`
(`src/server.go:367`), in seconds. -/
def skewSeconds : Int := 300

/-- Sequentialised `getAccessToken` (`src/server.go:329-372`). The RLock
fast path and the post-Lock double-check test the same condition, so in a
single-interleaving model they collapse into one check. `fetch` stands for
the network call to `getAccessTokenWithExpiry`; the result is the returned
token (or error), the new state, and whether the credential endpoint was
contacted. -/
def getAccessToken (st : TokenState) (now : Int)
    (fetch : Except String TokenResponse) :
    Except String String × TokenState × Bool :=
  if st.accessToken ≠ "" ∧ now < st.tokenExpiry then
    (Except.ok st.accessToken, st, false)
  else
    match fetch with
    | Except.error e => (Except.error e, st, true)
    | Except.ok tr =>
      (Except.ok tr.accessToken,
       ⟨tr.accessToken, now + tr.expiresIn - skewSeconds⟩, true)

/- ===================== Track rows and disk reconciliation ===================== -/

/-- Row of the `tracks` table (schema in `src/server.go:283-293`); the
timestamp columns are not modelled. -/
structure TrackRow where
  trackID : String
  name : String
  artists : String
  downloadStatus : String
  errorMessage : Option String
  demucsStatus : String
  demucsErrorMessage : Option String
deriving DecidableEq, Repr

/-- Abstract artifact tree: maps a path to the size of the file there, or
`none` when the file is absent. -/
def FileSys : Type := String → Option Nat

/-- Path of a track's downloaded artifact, `filepath.Join("songs", trackID,
"base.mp3")`. -/
def basePath (trackID : String) : String :=
  "songs/" ++ trackID ++ "/base.mp3"

/-- The `checkFileExists` closure of the modular startup
(`src/server.go:65-68` of the modular `main`): `os.Stat` succeeds, i.e. the
file exists — its size is not inspected. -/
def checkFileExists (fs : FileSys) (trackID : String) : Bool :=
  (fs (basePath trackID)).isSome

/-- Presence test of the monolithic `verifyDownloadStatus`
(`src/server.go:388-390`): `os.Stat` succeeds and `info.Size() > 0`. -/
def fileNonEmpty (fs : FileSys) (trackID : String) : Bool :=
  match fs (basePath trackID) with
  | some size => decide (0 < size)
  | none => false

/-- Per-row body of the monolithic `verifyDownloadStatus` loop
(`src/server.go:382-401`); its SQL UPDATE touches only `download_status`
(and `updated_at`, not modelled). -/
def verifyRowMono (fs : FileSys) (r : TrackRow) : TrackRow :=
  if fileNonEmpty fs r.trackID then
    if r.downloadStatus ≠ "completed" then { r with downloadStatus := "completed" } else r
  else if r.downloadStatus = "in_progress" then { r with downloadStatus := "pending" }
  else r

/-- The monolithic `verifyDownloadStatus` (`src/server.go:374-404`) over the
whole table; `track_id` is the primary key, so the per-row UPDATE touches
exactly the row being scanned. -/
def verifyDownloadStatusMono (fs : FileSys) (rows : List TrackRow) : List TrackRow :=
  rows.map (verifyRowMono fs)

/-- `DB.UpdateDownloadStatus` (`src/server.go:1006-1022`): an empty error
message stores NULL in `error_message`. -/
def updateDownloadStatusRow (r : TrackRow) (status errorMessage : String) : TrackRow :=
  if errorMessage ≠ "" then
    { r with downloadStatus := status, errorMessage := some errorMessage }
  else
    { r with downloadStatus := status, errorMessage := none }

/-- Per-row body of `DB.VerifyDownloadStatus` (`src/server.go:1156-1167`). -/
def verifyRowDB (check : String → Bool) (r : TrackRow) : TrackRow :=
  if check r.trackID then
    if r.downloadStatus ≠ "completed" then updateDownloadStatusRow r "completed" "" else r
  else if r.downloadStatus = "in_progress" then updateDownloadStatusRow r "pending" ""
  else r

/-- `DB.VerifyDownloadStatus` (`src/server.go:1149-1169`) over the whole
table. -/
def verifyDownloadStatusDB (check : String → Bool) (rows : List TrackRow) : List TrackRow :=
  rows.map (verifyRowDB check)

/-- Per-row reconciliation step as the claim words it: test existence and
non-emptiness of the artifact; if present and non-empty and not completed,
set completed; if absent and in progress, reset to pending; otherwise leave
the row unchanged. This definition follows the claim's text, for comparison
with the two source embeddings above. -/
def claimReconcileRow (fs : FileSys) (r : TrackRow) : TrackRow :=
  if fileNonEmpty fs r.trackID && !(r.downloadStatus == "completed") then
    { r with downloadStatus := "completed" }
  else if !(checkFileExists fs r.trackID) && r.downloadStatus == "in_progress" then
    { r with downloadStatus := "pending" }
  else r

/- ===================== Store: playlist submission ===================== -/

/-- Track descriptor from the catalog API (`models.TrackMetadata`; only the
fields the store persists are modelled). -/
structure TrackMetadata where
  id : String
  name : String
  artistsJoined : String
deriving DecidableEq, Repr

/-- Database state: the `tracks` table and the `playlist_tracks` relation. -/
structure DBState where
  tracks : List TrackRow
  playlistTracks : List (String × String)
deriving DecidableEq, Repr

/-- Row created for a fresh track by the bulk INSERT of `SavePlaylistTracks`
(`src/server.go:1055-1059`): `download_status` is the literal `'pending'`,
and the schema defaults give `demucs_status = 'pending'` and NULL error
columns. -/
def newTrackRow (t : TrackMetadata) : TrackRow :=
  { trackID := t.id, name := t.name, artists := t.artistsJoined,
    downloadStatus := "pending", errorMessage := none,
    demucsStatus := "pending", demucsErrorMessage := none }

/-- One row of the multi-row `INSERT INTO tracks ... ON CONFLICT(track_id)
DO NOTHING`: skipped when a row with the same primary key exists (including
one inserted by an earlier row of the same statement). -/
def insertTrackIfAbsent (tbl : List TrackRow) (t : TrackMetadata) : List TrackRow :=
  if tbl.any (fun r => r.trackID == t.id) then tbl else tbl ++ [newTrackRow t]

/-- One row of the `INSERT INTO playlist_tracks ... ON CONFLICT(playlist_id,
track_id) DO NOTHING`. -/
def insertMembershipIfAbsent (tbl : List (String × String)) (pid tid : String) :
    List (String × String) :=
  if tbl.any (fun m => decide (m = (pid, tid))) then tbl else tbl ++ [(pid, tid)]

/-- `DB.SavePlaylistTracks` (`src/server.go:1044-1096`); the same SQL is
inlined in the monolithic `setupPlaylistHandler` (`src/server.go:652-707`).
The `len(tracks) > 0` guard means an empty list commits an empty
transaction. -/
def SavePlaylistTracks (playlistID : String) (tracks : List TrackMetadata)
    (db : DBState) : DBState :=
  if tracks.isEmpty then db
  else
    { tracks := tracks.foldl insertTrackIfAbsent db.tracks,
      playlistTracks :=
        tracks.foldl (fun tbl t => insertMembershipIfAbsent tbl playlistID t.id)
          db.playlistTracks }

/-- First row with the given `track_id`. -/
def findTrack (tbl : List TrackRow) (id : String) : Option TrackRow :=
  tbl.find? (fun r => r.trackID == id)

/-- Number of rows with the given `track_id`. -/
def countTrack (tbl : List TrackRow) (id : String) : Nat :=
  tbl.countP (fun r => r.trackID == id)

/-- A sequence of playlist submissions applied to the store. -/
def runSubmissions (subs : List (String × List TrackMetadata)) (db : DBState) : DBState :=
  subs.foldl (fun acc sub => SavePlaylistTracks sub.1 sub.2 acc) db

/- ===================== Setup-playlist handler (post-resolution) ============ -/

/-- Playlist descriptor returned by the catalog client
(`models.PlaylistMetadata`). -/
structure PlaylistMetadata where
  name : String
  totalTracks : Nat
  tracks : List TrackMetadata
deriving DecidableEq, Repr

/-- HTTP outcome of `SetupPlaylistHandler`: status code and the JSON body
fields of `SetupPlaylistResponse`. -/
structure SetupResponse where
  status : Nat
  playlistName : String
  totalTracks : Nat
  trackIDs : List String
deriving DecidableEq, Repr

/-- `SetupPlaylistHandler` (`src/unnamed/part_003:66-99`) from the point
where the playlist has been resolved: create directories (no store effect),
save tracks and memberships, enqueue one download job per resolved track,
and answer 200 with the resolved track ids. Returns the new store state,
the response, and the track ids of the enqueued download jobs. -/
def SetupPlaylistHandler (metadata : PlaylistMetadata) (playlistID : String)
    (db : DBState) : DBState × SetupResponse × List String :=
  let trackIDs := metadata.tracks.map (fun t => t.id)
  let db2 := SavePlaylistTracks playlistID metadata.tracks db
  (db2, ⟨200, metadata.name, metadata.totalTracks, trackIDs⟩, trackIDs)

/- ===================== Worker loops ===================== -/

/-- One observable action of a worker loop iteration: a status write to the
tracks table, an event published on the progress bus, or a job pushed onto
the demucs queue. -/
inductive WorkerAction where
  | dbWrite (table trackID status : String) (error : Option String)
  | publish (e : ProgressEvent)
  | enqueueDemucs (trackID inputPath : String)
deriving DecidableEq, Repr

/-- Whether an action enqueues a demucs job. -/
def isEnqueueDemucs : WorkerAction → Bool
  | WorkerAction.enqueueDemucs _ _ => true
  | _ => false

/-- Events among a list of worker actions. -/
def actionEvents (acts : List WorkerAction) : List ProgressEvent :=
  acts.filterMap fun a =>
    match a with
    | WorkerAction.publish e => some e
    | _ => none

/-- One iteration of `DownloadWorker` (`src/server/worker/manager.go:28-79`;
the monolithic `worker`, `src/server.go:493-552`, performs the same trace):
publish pending, write `in_progress`, run the download (whose own progress
events `mids` flow through the same bus channel), then either record the
failure and publish the terminal failed event, or record completion,
publish completed, and enqueue the demucs job. -/
def downloadWorkerStep (track : TrackMetadata) (mids : List ProgressEvent)
    (result : Except String Unit) : List WorkerAction :=
  [WorkerAction.publish ⟨track.id, "download", "pending", 0, ""⟩,
   WorkerAction.dbWrite "tracks" track.id "in_progress" none] ++
  mids.map WorkerAction.publish ++
  match result with
  | Except.error msg =>
    [WorkerAction.dbWrite "tracks" track.id "failed" (some msg),
     WorkerAction.publish ⟨track.id, "download", "failed", 0, msg⟩]
  | Except.ok _ =>
    [WorkerAction.dbWrite "tracks" track.id "completed" none,
     WorkerAction.publish ⟨track.id, "download", "completed", 100, ""⟩,
     WorkerAction.enqueueDemucs track.id ("songs/" ++ track.id ++ "/base.mp3")]

/-- One iteration of `DemucsWorker` (`src/server/worker/manager.go:82-126`;
monolithic `demucsWorker`, `src/server.go:555-607`): symmetric to the
download worker but with no downstream enqueue. -/
def demucsWorkerStep (track : TrackMetadata) (mids : List ProgressEvent)
    (result : Except String Unit) : List WorkerAction :=
  [WorkerAction.publish ⟨track.id, "demucs", "pending", 0, ""⟩,
   WorkerAction.dbWrite "tracks" track.id "in_progress" none] ++
  mids.map WorkerAction.publish ++
  match result with
  | Except.error msg =>
    [WorkerAction.dbWrite "tracks" track.id "failed" (some msg),
     WorkerAction.publish ⟨track.id, "demucs", "failed", 0, msg⟩]
  | Except.ok _ =>
    [WorkerAction.dbWrite "tracks" track.id "completed" none,
     WorkerAction.publish ⟨track.id, "demucs", "completed", 100, ""⟩]

/- ===================== Progress broadcaster ===================== -/

/-- A subscriber channel: capacity and currently buffered events (an
unbuffered SSE client channel has capacity 0 unless a receiver is parked on
it, which this sequential model represents by giving it spare capacity). -/
structure SubChan where
  capacity : Nat
  buffer : List ProgressEvent
deriving DecidableEq, Repr

/-- Non-blocking send: `select { case client <- event: default: }` — deliver
when the channel has room, otherwise drop the event for that subscriber. -/
def trySend (c : SubChan) (e : ProgressEvent) : SubChan :=
  if c.buffer.length < c.capacity then { c with buffer := c.buffer ++ [e] } else c

/-- The `case event := <-b.events` arm of `ProgressBroadcaster.run`
(`src/server/core/progress.go:37-45`, identical loop in the monolithic
`run`, `src/server.go:256-265`): attempt a non-blocking send to every
subscriber. -/
def broadcastEvent (clients : List SubChan) (e : ProgressEvent) : List SubChan :=
  clients.map (fun c => trySend c e)

/-- Dispatching a sequence of events through the broadcaster. -/
def broadcastEvents (clients : List SubChan) (es : List ProgressEvent) : List SubChan :=
  es.foldl broadcastEvent clients

/-- A subscriber of the filtered broadcaster variant
(`src/unnamed/part_004`): `trackIDFilter = none` receives everything;
`some ids` receives only events whose track id is in `ids` (the Go
`map[string]bool` read with its false default). -/
structure FilteredSub where
  capacity : Nat
  buffer : List ProgressEvent
  trackIDFilter : Option (List String)
deriving DecidableEq, Repr

/-- Filter check of the part_004 `run` loop: `client.trackIDFilter != nil &&
!client.trackIDFilter[event.TrackID]` skips the client. -/
def filterMatches (filterIDs : Option (List String)) (trackID : String) : Bool :=
  match filterIDs with
  | none => true
  | some ids => ids.contains trackID

/-- The event arm of the filtered `run` (`src/unnamed/part_004:39-65`):
skip subscribers whose filter rejects the event, then attempt the same
non-blocking send. -/
def broadcastEventFiltered (clients : List FilteredSub) (e : ProgressEvent) :
    List FilteredSub :=
  clients.map fun c =>
    if !(filterMatches c.trackIDFilter e.trackID) then c
    else if c.buffer.length < c.capacity then { c with buffer := c.buffer ++ [e] } else c

/- ===================== yt-dlp search output parsing ===================== -/

/-- Filter applied to the yt-dlp search output lines
(`src/ytdlp.go:43-47`): drop warning lines, bracketed status lines and
empty lines. -/
def contentKeep (line : List Char) : Bool :=
  !(startsWithL line "WARNING:".toList) && !(startsWithL line "[".toList)
    && !(line.isEmpty)

/-- Parse phase of `SearchYouTube` (`src/ytdlp.go:39-62`, identical in
`src/unnamed/part_005:41-64`), applied to the combined output of a
successful `yt-dlp --get-id --get-title` run: trim, split on newlines,
filter, and require at least two content lines — the first is the title,
the second the video id. -/
def SearchYouTubeParse (output : String) : Except String (String × String) :=
  let allLines := splitOnNL (goTrimSpace output.toList)
  let contentLines := allLines.filter contentKeep
  if contentLines.length < 2 then
    Except.error ("unexpected yt-dlp output format: " ++ output)
  else
    Except.ok (String.mk (contentLines.getD 0 []), String.mk (contentLines.getD 1 []))

/- ===================== Helper lemmas ===================== -/

theorem clampWorkerEq (cm : Nat) (p : ℚ) (hp : 0 ≤ p) :
    (if ((List.range 4).foldl
          (fun acc i => if i < cm then acc + 100 else if i = cm then acc + p else acc) 0) / 4 > 100
     then (100 : ℚ)
     else ((List.range 4).foldl
          (fun acc i => if i < cm then acc + 100 else if i = cm then acc + p else acc) 0) / 4)
    = (if (cm : ℚ) * 25 + p / 4 > 100 then 100 else (cm : ℚ) * 25 + p / 4) := by
  have hr4 : List.range 4 = [0, 1, 2, 3] := by decide
  rw [hr4]
  simp only [List.foldl]
  rcases cm with _ | _ | _ | _ | n
  · norm_num
  · norm_num
    rw [show ((100 : ℚ) + p) / 4 = 25 + p / 4 by ring]
  · norm_num
    rw [show ((200 : ℚ) + p) / 4 = 50 + p / 4 by ring]
  · norm_num
    rw [show ((300 : ℚ) + p) / 4 = 75 + p / 4 by ring]
  · norm_num
    rw [show ((n : ℚ) + 1 + 1 + 1 + 1) * 25 + p / 4 = (n : ℚ) * 25 + 100 + p / 4 by ring]
    have h100 : (100 : ℚ) ≤ (n : ℚ) * 25 + 100 + p / 4 := by
      have hn : (0 : ℚ) ≤ (n : ℚ) := Nat.cast_nonneg n
      nlinarith
    by_cases hgt : (100 : ℚ) < (n : ℚ) * 25 + 100 + p / 4
    · rw [if_pos hgt]
    · rw [if_neg hgt]
      linarith

/-- The two `processDemucsOutput` closures (monolithic scaling and worker
averaging loop) compute the same state and the same events. -/
theorem processDemucsOutputWorker_eq (line trackID : String) (st : DemucsState) :
    processDemucsOutputWorker line trackID st = processDemucsOutput line trackID st := by
  unfold processDemucsOutput processDemucsOutputWorker
  cases h : demucsAccept line with
  | none => rfl
  | some p =>
    simp only
    rw [clampWorkerEq _ _ (by positivity)]

/- ===================== Claim C1 ===================== -/

/-- Claim C1, amended: for every line accepted by the separator progress
parser, `current_pass` is incremented exactly when the new percentage is
strictly more than 50 points below the stored `last_percent`
(`modelProgress < lastProgress - 50`); otherwise it is unchanged; in both
cases `last_percent` is set to the new value. This holds for both
`processDemucsOutput` closures. -/
theorem C1_passBoundaryStrict (line trackID : String) (st : DemucsState) (p : Nat)
    (h : demucsAccept line = some p) :
    (processDemucsOutput line trackID st).1 =
      ⟨(if (p : ℚ) < st.lastProgress - 50 then st.currentModel + 1 else st.currentModel),
       (p : ℚ)⟩ ∧
    (processDemucsOutputWorker line trackID st).1 =
      ⟨(if (p : ℚ) < st.lastProgress - 50 then st.currentModel + 1 else st.currentModel),
       (p : ℚ)⟩ := by
  have hw := processDemucsOutputWorker_eq line trackID st
  constructor
  · simp [processDemucsOutput, h]
  · rw [hw]
    simp [processDemucsOutput, h]

/-- Witness for C1 at the concrete accepted line `" 45%|"`. -/
theorem C1_passBoundaryStrict_witness :
    (processDemucsOutput " 45%|" "T" ⟨0, 0⟩).1 =
      ⟨(if ((45 : Nat) : ℚ) < (0 : ℚ) - 50 then 0 + 1 else 0), ((45 : Nat) : ℚ)⟩ ∧
    (processDemucsOutputWorker " 45%|" "T" ⟨0, 0⟩).1 =
      ⟨(if ((45 : Nat) : ℚ) < (0 : ℚ) - 50 then 0 + 1 else 0), ((45 : Nat) : ℚ)⟩ :=
  C1_passBoundaryStrict " 45%|" "T" ⟨0, 0⟩ 45 (by decide)

/-- Counterexample to C1 as stated: after a `"100%|"` line the stored
`last_percent` is 100; the next line's value 50 is exactly 50 points below
it — "at least 50 percentage points below" holds — yet `current_pass` is
not incremented, because the code tests the strict `50 < 100 - 50`. -/
theorem C1_atLeast50_counterexample :
    (processDemucsOutput "100%|" "T" ⟨0, 0⟩).1 = ⟨0, 100⟩ ∧
    (processDemucsOutput "50%|" "T" ⟨0, 100⟩).1.currentModel = 0 ∧
    ((50 : ℚ) ≤ (100 : ℚ) - 50) := by
  refine ⟨?_, ?_, by norm_num⟩
  · have h : demucsAccept "100%|" = some 100 := by decide
    simp [processDemucsOutput, h]
    norm_num
  · have h : demucsAccept "50%|" = some 50 := by decide
    simp [processDemucsOutput, h]
    norm_num

/- ===================== Claim C5 ===================== -/

/-- Claim C5: for every accepted separator progress line, the published
unified progress equals `(completed_passes * 100 + current_percent) / 4`
clamped to `[0, 100]`, where `completed_passes` is the pass counter at the
time of the line (after the boundary update of step C1) and
`current_percent` is the extracted percentage; both closure variants agree. -/
theorem C5_unifiedProgress (line trackID : String) (st : DemucsState) (p : Nat)
    (h : demucsAccept line = some p) :
    (processDemucsOutput line trackID st).2 =
      [⟨trackID, "demucs", "processing",
        max 0 (min 100
          ((((processDemucsOutput line trackID st).1.currentModel : ℚ) * 100 + (p : ℚ)) / 4)),
        ""⟩] ∧
    (processDemucsOutputWorker line trackID st).2 =
      [⟨trackID, "demucs", "processing",
        max 0 (min 100
          ((((processDemucsOutputWorker line trackID st).1.currentModel : ℚ) * 100 + (p : ℚ)) / 4)),
        ""⟩] := by
  have hw := processDemucsOutputWorker_eq line trackID st
  have main : (processDemucsOutput line trackID st).2 =
      [⟨trackID, "demucs", "processing",
        max 0 (min 100
          ((((processDemucsOutput line trackID st).1.currentModel : ℚ) * 100 + (p : ℚ)) / 4)),
        ""⟩] := by
    simp only [processDemucsOutput, h]
    set cm := (if (p : ℚ) < st.lastProgress - 50 then st.currentModel + 1 else st.currentModel)
      with hcm
    have hv : (((cm : ℚ)) * 100 + (p : ℚ)) / 4 = (cm : ℚ) * 25 + (p : ℚ) / 4 := by ring
    rw [hv]
    set v := (cm : ℚ) * 25 + (p : ℚ) / 4 with hvv
    have hv0 : 0 ≤ v := by positivity
    by_cases hgt : v > 100
    · rw [if_pos hgt, min_eq_left (le_of_lt hgt)]
      norm_num
    · rw [if_neg hgt, min_eq_right (not_lt.mp hgt)]
      rw [max_eq_right hv0]
  exact ⟨main, by rw [hw]; exact main⟩

/-- Witness for C5 at the concrete accepted line `"100%|"`. -/
theorem C5_unifiedProgress_witness :
    (processDemucsOutput "100%|" "T" ⟨0, 0⟩).2 =
      [⟨"T", "demucs", "processing",
        max 0 (min 100
          ((((processDemucsOutput "100%|" "T" ⟨0, 0⟩).1.currentModel : ℚ) * 100
            + ((100 : Nat) : ℚ)) / 4)),
        ""⟩] ∧
    (processDemucsOutputWorker "100%|" "T" ⟨0, 0⟩).2 =
      [⟨"T", "demucs", "processing",
        max 0 (min 100
          ((((processDemucsOutputWorker "100%|" "T" ⟨0, 0⟩).1.currentModel : ℚ) * 100
            + ((100 : Nat) : ℚ)) / 4)),
        ""⟩] :=
  C5_unifiedProgress "100%|" "T" ⟨0, 0⟩ 100 (by decide)

/- ===================== Claim C2 ===================== -/

instance {α β : Type} [DecidableEq α] [DecidableEq β] : DecidableEq (Except α β) := fun x y =>
  match x, y with
  | Except.ok a, Except.ok b =>
    if h : a = b then isTrue (by rw [h]) else isFalse (by intro hc; injection hc; exact h ‹_›)
  | Except.error a, Except.error b =>
    if h : a = b then isTrue (by rw [h]) else isFalse (by intro hc; injection hc; exact h ‹_›)
  | Except.ok _, Except.error _ => isFalse (by intro hc; cases hc)
  | Except.error _, Except.ok _ => isFalse (by intro hc; cases hc)

/-- Claim C2, amended: the cache serves the stored token without contacting
the credential endpoint exactly when the token is non-empty and `now` is
before the stored expiry (`now < tokenExpiry`, with no further skew
subtracted at check time); a refresh stores
`tokenExpiry = now + lifetime − skew` with `skew = 5` minutes, so the
cached token stops being served once `now` is within skew of the token's
actual expiry `now + lifetime`. -/
theorem C2_cacheFreshness (st : TokenState) (now : Int) (tr : TokenResponse) :
    ((getAccessToken st now (Except.ok tr)).2.2 = false ↔
      (st.accessToken ≠ "" ∧ now < st.tokenExpiry)) ∧
    ((getAccessToken st now (Except.ok tr)).2.2 = false →
      (getAccessToken st now (Except.ok tr)).1 = Except.ok st.accessToken ∧
      (getAccessToken st now (Except.ok tr)).2.1 = st) ∧
    (¬ (st.accessToken ≠ "" ∧ now < st.tokenExpiry) →
      (getAccessToken st now (Except.ok tr)).2.1 =
        ⟨tr.accessToken, now + tr.expiresIn - skewSeconds⟩) := by
  unfold getAccessToken
  by_cases h : st.accessToken ≠ "" ∧ now < st.tokenExpiry
  · rw [if_pos h]
    simp [h]
  · rw [if_neg h]
    simp [h]

/-- Witness for C2: an empty cache at time 0 refreshing a 3600-second token
stores expiry `0 + 3600 − skew`. -/
theorem C2_cacheFreshness_witness :
    (getAccessToken ⟨"", 0⟩ 0 (Except.ok ⟨"tok", 3600⟩)).2.1 =
      ⟨"tok", 0 + 3600 - skewSeconds⟩ :=
  (C2_cacheFreshness ⟨"", 0⟩ 0 ⟨"tok", 3600⟩).2.2 (by decide)

/-- Counterexample to C2 as stated: a token refreshed at time 0 with
lifetime 3600 s is stored with expiry 3300. At `now = 3299` — which is not
fresh under the claim's formula `now < expiry − skew`, since
`3299 ≥ 3300 − 300` — the cache nevertheless serves the cached token
without contacting the endpoint. -/
theorem C2_skew_counterexample :
    (getAccessToken ⟨"", 0⟩ 0 (Except.ok ⟨"tok", 3600⟩)).2.1 = ⟨"tok", 3300⟩ ∧
    (getAccessToken ⟨"tok", 3300⟩ 3299 (Except.error "down")).2.2 = false ∧
    (getAccessToken ⟨"tok", 3300⟩ 3299 (Except.error "down")).1 = Except.ok "tok" ∧
    ¬ ((3299 : Int) < 3300 - skewSeconds) := by
  refine ⟨by decide, by decide, by decide, by decide⟩

/- ===================== Claim C3 ===================== -/

/-- Claim C3, amended: startup disk reconciliation maps every row through a
per-row step, but the presence test differs between the two variants. The
monolithic `verifyDownloadStatus` treats a file as present only when it
exists and is non-empty, and its reset branch fires whenever the file is
absent **or empty** and the status is `in_progress`. The modular
`DB.VerifyDownloadStatus`, run with the startup's `checkFileExists`
predicate, tests mere existence (an empty file counts as present) and its
updates also clear the `error_message` column. All other rows are left
unchanged. -/
theorem C3_reconcileRows (fs : FileSys) (r : TrackRow) (rows : List TrackRow) (i : Nat) :
    ((verifyDownloadStatusMono fs rows)[i]? = (rows[i]?).map (verifyRowMono fs)) ∧
    ((verifyDownloadStatusDB (checkFileExists fs) rows)[i]? =
      (rows[i]?).map (verifyRowDB (checkFileExists fs))) ∧
    (fileNonEmpty fs r.trackID = true → r.downloadStatus ≠ "completed" →
      verifyRowMono fs r = { r with downloadStatus := "completed" }) ∧
    (fileNonEmpty fs r.trackID = true → r.downloadStatus = "completed" →
      verifyRowMono fs r = r) ∧
    (fileNonEmpty fs r.trackID = false → r.downloadStatus = "in_progress" →
      verifyRowMono fs r = { r with downloadStatus := "pending" }) ∧
    (fileNonEmpty fs r.trackID = false → r.downloadStatus ≠ "in_progress" →
      verifyRowMono fs r = r) ∧
    (checkFileExists fs r.trackID = true → r.downloadStatus ≠ "completed" →
      verifyRowDB (checkFileExists fs) r =
        { r with downloadStatus := "completed", errorMessage := none }) ∧
    (checkFileExists fs r.trackID = true → r.downloadStatus = "completed" →
      verifyRowDB (checkFileExists fs) r = r) ∧
    (checkFileExists fs r.trackID = false → r.downloadStatus = "in_progress" →
      verifyRowDB (checkFileExists fs) r =
        { r with downloadStatus := "pending", errorMessage := none }) ∧
    (checkFileExists fs r.trackID = false → r.downloadStatus ≠ "in_progress" →
      verifyRowDB (checkFileExists fs) r = r) := by
  refine ⟨?_, ?_, ?_, ?_, ?_, ?_, ?_, ?_, ?_, ?_⟩
  · simp [verifyDownloadStatusMono]
  · simp [verifyDownloadStatusDB]
  · intro h1 h2
    simp [verifyRowMono, h1, h2]
  · intro h1 h2
    simp [verifyRowMono, h1, h2]
  · intro h1 h2
    simp [verifyRowMono, h1, h2]
  · intro h1 h2
    simp [verifyRowMono, h1, h2]
  · intro h1 h2
    simp [verifyRowDB, updateDownloadStatusRow, h1, h2]
  · intro h1 h2
    simp [verifyRowDB, updateDownloadStatusRow, h1, h2]
  · intro h1 h2
    simp [verifyRowDB, updateDownloadStatusRow, h1, h2]
  · intro h1 h2
    simp [verifyRowDB, updateDownloadStatusRow, h1, h2]

/-- Witness for C3: with no files on disk, an `in_progress` row is reset to
`pending` by the monolithic reconciliation. -/
theorem C3_reconcileRows_witness :
    verifyRowMono (fun _ => none) ⟨"X", "n", "a", "in_progress", none, "pending", none⟩ =
      { (⟨"X", "n", "a", "in_progress", none, "pending", none⟩ : TrackRow) with
        downloadStatus := "pending" } :=
  ((C3_reconcileRows (fun _ => none) ⟨"X", "n", "a", "in_progress", none, "pending", none⟩ [] 0
    ).2.2.2.2.1) (by decide) (by decide)

/-- Counterexample to C3 as stated: an existing but empty
`songs/X/base.mp3` with status `in_progress`. The claim's branches (promote
only when present and non-empty; reset only when absent) leave the row
unchanged, but the monolithic code resets it to `pending` (empty falls into
its else branch) and the modular code promotes it to `completed`
(`checkFileExists` ignores the size). -/
theorem C3_emptyFile_counterexample :
    (claimReconcileRow (fun path => if path = "songs/X/base.mp3" then some 0 else none)
      ⟨"X", "n", "a", "in_progress", none, "pending", none⟩).downloadStatus = "in_progress" ∧
    (verifyRowMono (fun path => if path = "songs/X/base.mp3" then some 0 else none)
      ⟨"X", "n", "a", "in_progress", none, "pending", none⟩).downloadStatus = "pending" ∧
    (verifyRowDB (checkFileExists (fun path => if path = "songs/X/base.mp3" then some 0 else none))
      ⟨"X", "n", "a", "in_progress", none, "pending", none⟩).downloadStatus = "completed" := by
  refine ⟨by decide, by decide, by decide⟩

/- ===================== Claim C7 ===================== -/

/-- Claim C7: the download worker's failure branch writes
`download_status = failed` with the subprocess error message, publishes the
terminal failed event carrying that error, and contains no demucs enqueue;
the demucs enqueue appears only on the success branch, after the completed
status write and the completed event. -/
theorem C7_failureNoEnqueue (track : TrackMetadata) (mids : List ProgressEvent)
    (msg : String) :
    downloadWorkerStep track mids (Except.error msg) =
      [WorkerAction.publish ⟨track.id, "download", "pending", 0, ""⟩,
       WorkerAction.dbWrite "tracks" track.id "in_progress" none] ++
      mids.map WorkerAction.publish ++
      [WorkerAction.dbWrite "tracks" track.id "failed" (some msg),
       WorkerAction.publish ⟨track.id, "download", "failed", 0, msg⟩] ∧
    ((downloadWorkerStep track mids (Except.error msg)).all
      (fun a => !(isEnqueueDemucs a))) = true ∧
    downloadWorkerStep track mids (Except.ok ()) =
      [WorkerAction.publish ⟨track.id, "download", "pending", 0, ""⟩,
       WorkerAction.dbWrite "tracks" track.id "in_progress" none] ++
      mids.map WorkerAction.publish ++
      [WorkerAction.dbWrite "tracks" track.id "completed" none,
       WorkerAction.publish ⟨track.id, "download", "completed", 100, ""⟩,
       WorkerAction.enqueueDemucs track.id ("songs/" ++ track.id ++ "/base.mp3")] := by
  refine ⟨rfl, ?_, rfl⟩
  simp [downloadWorkerStep, isEnqueueDemucs, List.all_append, List.all_map, Function.comp]

/- ===================== Claim C8 ===================== -/

theorem broadcastEvents_foldl (clients : List SubChan) (es : List ProgressEvent) :
    broadcastEvents clients es = clients.map (fun c => es.foldl trySend c) := by
  induction es generalizing clients with
  | nil => simp [broadcastEvents]
  | cons e rest ih =>
    have h1 : broadcastEvents clients (e :: rest) =
        broadcastEvents (broadcastEvent clients e) rest := rfl
    rw [h1, ih, broadcastEvent, List.map_map]
    simp [Function.comp]

/-- Claim C8, amended: in the unfiltered broadcaster every subscriber
receives a dispatched event exactly when its channel has room (buffer
shorter than capacity), and a subscriber's state after any event sequence
is a function of its own initial state and the events alone — the fullness
of other subscribers has no effect on that event or later ones. In the
filtered variant (part_004) delivery additionally requires the
subscriber's track filter, when set, to contain the event's track id. -/
theorem C8_fanoutIsolation (clients : List SubChan) (e : ProgressEvent)
    (es : List ProgressEvent) (fclients : List FilteredSub) (i : Nat) :
    ((broadcastEvent clients e)[i]? = (clients[i]?).map (fun c =>
        if c.buffer.length < c.capacity then { c with buffer := c.buffer ++ [e] } else c)) ∧
    ((broadcastEvents clients es)[i]? = (clients[i]?).map (fun c => es.foldl trySend c)) ∧
    (∀ cs1 cs2 : List SubChan, cs1[i]? = cs2[i]? →
      (broadcastEvents cs1 es)[i]? = (broadcastEvents cs2 es)[i]?) ∧
    ((broadcastEventFiltered fclients e)[i]? = (fclients[i]?).map (fun c =>
        if !(filterMatches c.trackIDFilter e.trackID) then c
        else if c.buffer.length < c.capacity then { c with buffer := c.buffer ++ [e] }
        else c)) := by
  refine ⟨?_, ?_, ?_, ?_⟩
  · simp [broadcastEvent, trySend, List.getElem?_map]
  · rw [broadcastEvents_foldl]
    simp [List.getElem?_map]
  · intro cs1 cs2 hi
    rw [broadcastEvents_foldl, broadcastEvents_foldl]
    simp [List.getElem?_map, hi]
  · simp [broadcastEventFiltered, List.getElem?_map]

/-- Witness for C8: subscriber 1 ends in the same state whether subscriber
0 is full (capacity 0) or roomy (capacity 1). -/
theorem C8_fanoutIsolation_witness :
    (broadcastEvents [⟨0, []⟩, ⟨1, []⟩] [⟨"T", "download", "downloading", 0, ""⟩])[1]? =
    (broadcastEvents [⟨1, []⟩, ⟨1, []⟩] [⟨"T", "download", "downloading", 0, ""⟩])[1]? :=
  (C8_fanoutIsolation [] ⟨"T", "download", "downloading", 0, ""⟩
    [⟨"T", "download", "downloading", 0, ""⟩] [] 1).2.2.1
    [⟨0, []⟩, ⟨1, []⟩] [⟨1, []⟩, ⟨1, []⟩] (by decide)

/-- Counterexample to C8 as stated: in the filtered broadcaster variant a
registered subscriber whose filter is `["A"]` has room in its buffer
(length 0 < capacity 1), yet an event for track `"B"` is not delivered to
it — delivery is not equivalent to "the channel can accept the event". -/
theorem C8_filtered_counterexample :
    broadcastEventFiltered [⟨1, [], some ["A"]⟩] ⟨"B", "download", "downloading", 0, ""⟩ =
      [⟨1, [], some ["A"]⟩] ∧
    ((⟨1, [], some ["A"]⟩ : FilteredSub).buffer.length <
      (⟨1, [], some ["A"]⟩ : FilteredSub).capacity) := by
  refine ⟨by decide, by decide⟩

/- ===================== Claim C9 ===================== -/

/-- Claim C9: `SearchYouTube`'s parse phase fails with the
"unexpected yt-dlp output format" error exactly when the trimmed output,
split on newlines and filtered of empty lines and lines starting with
`WARNING:` or `[`, has fewer than two content lines; otherwise it returns
the first content line as the title and the second as the video id. -/
theorem C9_searchParse (output : String) :
    (((splitOnNL (goTrimSpace output.toList)).filter contentKeep).length < 2 →
      SearchYouTubeParse output =
        Except.error ("unexpected yt-dlp output format: " ++ output)) ∧
    (2 ≤ ((splitOnNL (goTrimSpace output.toList)).filter contentKeep).length →
      SearchYouTubeParse output =
        Except.ok
          (String.mk (((splitOnNL (goTrimSpace output.toList)).filter contentKeep).getD 0 []),
           String.mk (((splitOnNL (goTrimSpace output.toList)).filter contentKeep).getD 1 []))) ∧
    ((∃ msg, SearchYouTubeParse output = Except.error msg) ↔
      ((splitOnNL (goTrimSpace output.toList)).filter contentKeep).length < 2) := by
  have hdef : SearchYouTubeParse output =
      (if ((splitOnNL (goTrimSpace output.toList)).filter contentKeep).length < 2 then
        Except.error ("unexpected yt-dlp output format: " ++ output)
      else
        Except.ok
          (String.mk (((splitOnNL (goTrimSpace output.toList)).filter contentKeep).getD 0 []),
           String.mk (((splitOnNL (goTrimSpace output.toList)).filter contentKeep).getD 1 []))) :=
    rfl
  rw [hdef]
  by_cases h : ((splitOnNL (goTrimSpace output.toList)).filter contentKeep).length < 2
  · rw [if_pos h]
    simp [h]
    exact h
  · rw [if_neg h]
    simp [h]
    exact Nat.le_of_not_lt h

/-- Witness for C9: output with one warning line, one bracketed line and two
content lines parses to the title and video id. -/
theorem C9_searchParse_witness :
    SearchYouTubeParse "WARNING: a\n[youtube] b\nTitle\nvid123" =
      Except.ok
        (String.mk (((splitOnNL (goTrimSpace
            "WARNING: a\n[youtube] b\nTitle\nvid123".toList)).filter contentKeep).getD 0 []),
         String.mk (((splitOnNL (goTrimSpace
            "WARNING: a\n[youtube] b\nTitle\nvid123".toList)).filter contentKeep).getD 1 [])) :=
  (C9_searchParse "WARNING: a\n[youtube] b\nTitle\nvid123").2.1 (by decide)

/- ===================== Claim C10 ===================== -/

/-- Claim C10: `SavePlaylistTracks` with an empty track list leaves the
store unchanged (and returns success, modelled by totality), and the
setup-playlist handler on a playlist resolving to zero tracks leaves the
store unchanged, enqueues nothing, and answers 200 with an empty
`track_ids` list. -/
theorem C10_emptyPlaylist (playlistID name : String) (total : Nat) (db : DBState) :
    SavePlaylistTracks playlistID [] db = db ∧
    SetupPlaylistHandler ⟨name, total, []⟩ playlistID db =
      (db, ⟨200, name, total, []⟩, []) := by
  have h1 : SavePlaylistTracks playlistID [] db = db := by
    simp [SavePlaylistTracks]
  exact ⟨h1, by simp [SetupPlaylistHandler, h1]⟩

/- ===================== Claim C6 ===================== -/

def countMemb (tbl : List (String × String)) (m : String × String) : Nat :=
  tbl.countP (fun x => decide (x = m))

theorem insertTrack_preserve {tbl : List TrackRow} {id : String} {r : TrackRow}
    (t : TrackMetadata) (h : findTrack tbl id = some r) :
    findTrack (insertTrackIfAbsent tbl t) id = some r ∧
    countTrack (insertTrackIfAbsent tbl t) id = countTrack tbl id := by
  unfold insertTrackIfAbsent
  by_cases ha : tbl.any (fun x => x.trackID == t.id)
  · rw [if_pos ha]
    exact ⟨h, rfl⟩
  · rw [if_neg ha]
    have hne : t.id ≠ id := by
      intro heq
      apply ha
      have hm := List.mem_of_find?_eq_some h
      have hp := List.find?_some h
      exact List.any_eq_true.mpr ⟨r, hm, by rw [heq]; exact hp⟩
    constructor
    · unfold findTrack at h ⊢
      rw [List.find?_append, h]
      rfl
    · unfold countTrack
      rw [List.countP_append]
      have h0 : List.countP (fun x => x.trackID == id) [newTrackRow t] = 0 := by
        simp [List.countP_cons, newTrackRow, hne]
      rw [h0]
      omega

theorem foldl_insert_preserve (ts : List TrackMetadata) {tbl : List TrackRow}
    {id : String} {r : TrackRow} (h : findTrack tbl id = some r) :
    findTrack (ts.foldl insertTrackIfAbsent tbl) id = some r ∧
    countTrack (ts.foldl insertTrackIfAbsent tbl) id = countTrack tbl id := by
  induction ts generalizing tbl with
  | nil => exact ⟨h, rfl⟩
  | cons t rest ih =>
    have h1 := insertTrack_preserve t h
    have h2 := ih h1.1
    exact ⟨h2.1, h2.2.trans h1.2⟩

theorem insertTrack_none_other {tbl : List TrackRow} {id : String}
    {t : TrackMetadata} (h : findTrack tbl id = none) (hne : t.id ≠ id) :
    findTrack (insertTrackIfAbsent tbl t) id = none ∧
    countTrack (insertTrackIfAbsent tbl t) id = countTrack tbl id := by
  unfold insertTrackIfAbsent
  by_cases ha : tbl.any (fun x => x.trackID == t.id)
  · rw [if_pos ha]
    exact ⟨h, rfl⟩
  · rw [if_neg ha]
    constructor
    · unfold findTrack at h ⊢
      rw [List.find?_append, h]
      simp [newTrackRow, hne]
    · unfold countTrack
      rw [List.countP_append]
      have h0 : List.countP (fun x => x.trackID == id) [newTrackRow t] = 0 := by
        simp [List.countP_cons, newTrackRow, hne]
      rw [h0]
      omega

theorem insertTrack_absent {tbl : List TrackRow} {id : String}
    {t : TrackMetadata} (h : findTrack tbl id = none) (heq : t.id = id) :
    findTrack (insertTrackIfAbsent tbl t) id = some (newTrackRow t) ∧
    countTrack (insertTrackIfAbsent tbl t) id = 1 := by
  unfold insertTrackIfAbsent
  have ha : ¬ (tbl.any (fun x => x.trackID == t.id) = true) := by
    subst heq
    intro hcon
    rcases List.any_eq_true.mp hcon with ⟨x, hx, hpx⟩
    exact absurd hpx (List.find?_eq_none.mp h x hx)
  rw [if_neg ha]
  constructor
  · unfold findTrack at h ⊢
    rw [List.find?_append, h]
    simp [newTrackRow, heq]
  · unfold countTrack
    rw [List.countP_append]
    have h0 : List.countP (fun x => x.trackID == id) tbl = 0 :=
      List.countP_eq_zero.mpr (List.find?_eq_none.mp h)
    simp [h0, List.countP_cons, newTrackRow, heq]

theorem foldl_insert_absent (ts : List TrackMetadata) {tbl : List TrackRow}
    {id : String} (h : findTrack tbl id = none) (hex : ∃ t ∈ ts, t.id = id) :
    (∀ r, findTrack (ts.foldl insertTrackIfAbsent tbl) id = some r →
      ∃ t0 : TrackMetadata, t0.id = id ∧ r = newTrackRow t0) ∧
    countTrack (ts.foldl insertTrackIfAbsent tbl) id = 1 := by
  induction ts generalizing tbl with
  | nil => simp at hex
  | cons t rest ih =>
    by_cases heq : t.id = id
    · have h1 := insertTrack_absent h heq
      have h2 := foldl_insert_preserve rest h1.1
      refine ⟨?_, h2.2.trans h1.2⟩
      intro r hr
      rw [List.foldl_cons] at hr
      rw [h2.1] at hr
      exact ⟨t, heq, (Option.some.injEq _ _ ▸ hr).symm⟩
    · have h1 := insertTrack_none_other h heq
      have hex2 : ∃ t2 ∈ rest, t2.id = id := by
        rcases hex with ⟨t2, ht2, hid⟩
        rcases List.mem_cons.mp ht2 with h' | h'
        · exact absurd (h' ▸ hid) heq
        · exact ⟨t2, h', hid⟩
      have h2 := ih h1.1 hex2
      exact ⟨h2.1, h2.2⟩

theorem insertMemb_le_one {tbl : List (String × String)} {m : String × String}
    (pid tid : String) (h : countMemb tbl m ≤ 1) :
    countMemb (insertMembershipIfAbsent tbl pid tid) m ≤ 1 := by
  unfold insertMembershipIfAbsent countMemb at *
  by_cases ha : tbl.any (fun x => decide (x = (pid, tid)))
  · rw [if_pos ha]
    exact h
  · rw [if_neg ha]
    rw [List.countP_append]
    by_cases hm : (pid, tid) = m
    · have h0 : List.countP (fun x => decide (x = m)) tbl = 0 := by
        rw [List.countP_eq_zero]
        intro a hmem hpa
        apply ha
        refine List.any_eq_true.mpr ⟨a, hmem, ?_⟩
        rw [decide_eq_true_eq] at hpa ⊢
        rw [hpa, hm]
      have h1 : List.countP (fun x => decide (x = m)) [(pid, tid)] = 1 := by
        simp [List.countP_cons, hm]
      omega
    · have h1 : List.countP (fun x => decide (x = m)) [(pid, tid)] = 0 := by
        simp [List.countP_cons, hm]
      omega

theorem insertMemb_mem_self (tbl : List (String × String)) (pid tid : String) :
    (pid, tid) ∈ insertMembershipIfAbsent tbl pid tid := by
  unfold insertMembershipIfAbsent
  by_cases ha : tbl.any (fun x => decide (x = (pid, tid)))
  · rw [if_pos ha]
    rcases List.any_eq_true.mp ha with ⟨x, hx, hpx⟩
    rw [decide_eq_true_eq] at hpx
    exact hpx ▸ hx
  · rw [if_neg ha]
    exact List.mem_append_right _ (List.mem_singleton.mpr rfl)

theorem insertMemb_mem_mono {tbl : List (String × String)} {m : String × String}
    (pid tid : String) (h : m ∈ tbl) : m ∈ insertMembershipIfAbsent tbl pid tid := by
  unfold insertMembershipIfAbsent
  by_cases ha : tbl.any (fun x => decide (x = (pid, tid)))
  · rw [if_pos ha]; exact h
  · rw [if_neg ha]; exact List.mem_append_left _ h

theorem foldl_memb_mono (ts : List TrackMetadata) {tbl : List (String × String)}
    {m : String × String} (pid : String) (h : m ∈ tbl) :
    m ∈ ts.foldl (fun acc x => insertMembershipIfAbsent acc pid x.id) tbl := by
  induction ts generalizing tbl with
  | nil => exact h
  | cons t rest ih => exact ih (insertMemb_mem_mono pid t.id h)

theorem foldl_memb_mem (ts : List TrackMetadata) {tbl : List (String × String)}
    (pid : String) {t : TrackMetadata} (ht : t ∈ ts) :
    (pid, t.id) ∈ ts.foldl (fun acc x => insertMembershipIfAbsent acc pid x.id) tbl := by
  induction ts generalizing tbl with
  | nil => simp at ht
  | cons t2 rest ih =>
    rcases List.mem_cons.mp ht with h' | h'
    · subst h'
      exact foldl_memb_mono rest pid (insertMemb_mem_self tbl pid t.id)
    · exact ih h'

theorem foldl_memb_le_one (ts : List TrackMetadata) {tbl : List (String × String)}
    {m : String × String} (pid : String) (h : countMemb tbl m ≤ 1) :
    countMemb (ts.foldl (fun acc x => insertMembershipIfAbsent acc pid x.id) tbl) m ≤ 1 := by
  induction ts generalizing tbl with
  | nil => exact h
  | cons t rest ih => exact ih (insertMemb_le_one pid t.id h)

theorem save_preserve {playlistID : String} {ts : List TrackMetadata} {db : DBState}
    {id : String} {r : TrackRow} (h : findTrack db.tracks id = some r) :
    findTrack (SavePlaylistTracks playlistID ts db).tracks id = some r ∧
    countTrack (SavePlaylistTracks playlistID ts db).tracks id =
      countTrack db.tracks id := by
  unfold SavePlaylistTracks
  by_cases he : ts.isEmpty
  · rw [if_pos he]
    exact ⟨h, rfl⟩
  · rw [if_neg he]
    exact foldl_insert_preserve ts h

theorem runSubs_preserve (subs : List (String × List TrackMetadata)) {db : DBState}
    {id : String} {r : TrackRow} (h : findTrack db.tracks id = some r) :
    findTrack (runSubmissions subs db).tracks id = some r ∧
    countTrack (runSubmissions subs db).tracks id = countTrack db.tracks id := by
  induction subs generalizing db with
  | nil => exact ⟨h, rfl⟩
  | cons s rest ih =>
    have h1 := @save_preserve s.1 s.2 db id r h
    have h2 := ih h1.1
    exact ⟨h2.1, h2.2.trans h1.2⟩

/-- Claim C6: a track id submitted while absent from the store is inserted
by `SavePlaylistTracks` with `download_status` and `demucs_status` both
`pending` and NULL error columns, and exactly one row for that id exists
afterwards; once a row for the id exists, any further sequence of playlist
submissions leaves that row (statuses and error fields included) unchanged
and inserts no duplicate; memberships are likewise insert-if-absent (the
submitted pair becomes a member and the at-most-one-copy invariant is
preserved). -/
theorem C6_insertIfAbsent (playlistID : String) (ts : List TrackMetadata) (db : DBState)
    (t : TrackMetadata) (subs : List (String × List TrackMetadata))
    (pid0 tid0 : String) :
    (findTrack db.tracks t.id = none → t ∈ ts →
      (∀ r, findTrack (SavePlaylistTracks playlistID ts db).tracks t.id = some r →
        r.trackID = t.id ∧ r.downloadStatus = "pending" ∧ r.demucsStatus = "pending" ∧
        r.errorMessage = none ∧ r.demucsErrorMessage = none) ∧
      countTrack (SavePlaylistTracks playlistID ts db).tracks t.id = 1) ∧
    (∀ r, findTrack db.tracks t.id = some r →
      findTrack (runSubmissions subs db).tracks t.id = some r ∧
      countTrack (runSubmissions subs db).tracks t.id = countTrack db.tracks t.id) ∧
    (t ∈ ts → (playlistID, t.id) ∈ (SavePlaylistTracks playlistID ts db).playlistTracks) ∧
    (countMemb db.playlistTracks (pid0, tid0) ≤ 1 →
      countMemb (SavePlaylistTracks playlistID ts db).playlistTracks (pid0, tid0) ≤ 1) := by
  refine ⟨?_, ?_, ?_, ?_⟩
  · intro hnone hmem
    have hne : ¬ ts.isEmpty := by
      cases ts
      · simp at hmem
      · simp
    unfold SavePlaylistTracks
    rw [if_neg hne]
    have habs := foldl_insert_absent ts hnone ⟨t, hmem, rfl⟩
    refine ⟨?_, habs.2⟩
    intro r hr
    rcases habs.1 r hr with ⟨t0, ht0, hre⟩
    subst hre
    exact ⟨ht0, rfl, rfl, rfl, rfl⟩
  · intro r h
    exact runSubs_preserve subs h
  · intro hmem
    have hne : ¬ ts.isEmpty := by
      cases ts
      · simp at hmem
      · simp
    unfold SavePlaylistTracks
    rw [if_neg hne]
    exact foldl_memb_mem ts playlistID hmem
  · intro h
    unfold SavePlaylistTracks
    by_cases he : ts.isEmpty
    · rw [if_pos he]
      exact h
    · rw [if_neg he]
      exact foldl_memb_le_one ts playlistID h

/-- Witness for C6: re-submitting a playlist containing an already-known
track (here with `completed`/`failed` statuses and an error message) leaves
the stored row unchanged and keeps a single copy. -/
theorem C6_insertIfAbsent_witness :
    findTrack (runSubmissions [("P", [⟨"T1", "N", "A"⟩])]
        ⟨[⟨"T1", "N", "A", "completed", none, "failed", some "x"⟩], [("P", "T1")]⟩).tracks
        "T1" =
      some ⟨"T1", "N", "A", "completed", none, "failed", some "x"⟩ ∧
    countTrack (runSubmissions [("P", [⟨"T1", "N", "A"⟩])]
        ⟨[⟨"T1", "N", "A", "completed", none, "failed", some "x"⟩], [("P", "T1")]⟩).tracks
        "T1" =
      countTrack [⟨"T1", "N", "A", "completed", none, "failed", some "x"⟩] "T1" :=
  (C6_insertIfAbsent "P" [⟨"T1", "N", "A"⟩]
    ⟨[⟨"T1", "N", "A", "completed", none, "failed", some "x"⟩], [("P", "T1")]⟩
    ⟨"T1", "N", "A"⟩ [("P", [⟨"T1", "N", "A"⟩])] "P" "T1").2.1
    ⟨"T1", "N", "A", "completed", none, "failed", some "x"⟩ (by decide)

/- ===================== Claim C4 ===================== -/

/-- Claim C4, amended: every event published by the two demucs progress
parsers carries a progress value in [0, 100], and so do the events the
worker loops construct themselves (pending and failed carry 0, completed
carries 100); the download progress parser guarantees only the lower bound
— it publishes the parsed percentage unclamped, gated by `progress >= 0`
alone. -/
theorem C4_progressBounds :
    (∀ (line trackID : String) (st : DemucsState),
      ((processDemucsOutput line trackID st).2).all
        (fun e => decide (0 ≤ e.progress ∧ e.progress ≤ 100)) = true) ∧
    (∀ (line trackID : String) (st : DemucsState),
      ((processDemucsOutputWorker line trackID st).2).all
        (fun e => decide (0 ≤ e.progress ∧ e.progress ≤ 100)) = true) ∧
    (∀ (track : TrackMetadata) (result : Except String Unit),
      (actionEvents (downloadWorkerStep track [] result)).all
        (fun e => decide (0 ≤ e.progress ∧ e.progress ≤ 100)) = true) ∧
    (∀ (track : TrackMetadata) (result : Except String Unit),
      (actionEvents (demucsWorkerStep track [] result)).all
        (fun e => decide (0 ≤ e.progress ∧ e.progress ≤ 100)) = true) ∧
    (∀ (trackID : String) (lines : List String),
      (downloadProgressEvents trackID lines).all
        (fun e => decide (0 ≤ e.progress)) = true) := by
  have main : ∀ (line trackID : String) (st : DemucsState),
      ((processDemucsOutput line trackID st).2).all
        (fun e => decide (0 ≤ e.progress ∧ e.progress ≤ 100)) = true := by
    intro line trackID st
    rw [List.all_eq_true]
    intro e he
    rw [decide_eq_true_eq]
    unfold processDemucsOutput at he
    cases h : demucsAccept line with
    | none => rw [h] at he; simp at he
    | some p =>
      rw [h] at he
      simp only [List.mem_singleton] at he
      subst he
      simp only
      set cm := (if (p : ℚ) < st.lastProgress - 50 then st.currentModel + 1
        else st.currentModel) with hcm
      set v := (cm : ℚ) * 25 + (p : ℚ) / 4 with hv
      have hv0 : 0 ≤ v := by positivity
      by_cases hgt : v > 100
      · rw [if_pos hgt]
        norm_num
      · rw [if_neg hgt]
        exact ⟨hv0, not_lt.mp hgt⟩
  refine ⟨main, ?_, ?_, ?_, ?_⟩
  · intro line trackID st
    rw [processDemucsOutputWorker_eq]
    exact main line trackID st
  · intro track result
    cases result <;>
      norm_num [downloadWorkerStep, actionEvents, List.filterMap, List.all_cons]
  · intro track result
    cases result <;>
      norm_num [demucsWorkerStep, actionEvents, List.filterMap, List.all_cons]
  · intro trackID lines
    rw [List.all_eq_true]
    intro e he
    rw [decide_eq_true_eq]
    unfold downloadProgressEvents at he
    rw [List.mem_flatten] at he
    rcases he with ⟨l, hl, hel⟩
    rw [List.mem_map] at hl
    rcases hl with ⟨line, _, hline⟩
    subst hline
    unfold downloadLineEvents at hel
    by_cases hc : (containsSub line.toList "[download]".toList && line.toList.contains '%')
    · rw [if_pos hc] at hel
      simp only at hel
      by_cases hp : parseProgress line ≥ 0
      · rw [if_pos hp] at hel
        simp only [List.mem_singleton] at hel
        subst hel
        exact hp
      · rw [if_neg hp] at hel
        simp at hel
    · rw [if_neg hc] at hel
      simp at hel

/-- Counterexample to C4 as stated: the download parser accepts the line
`"[download] 150.0% of 1MiB"` and publishes a progress value of 150, which
is outside [0, 100] — the code checks only `progress >= 0` before
publishing. -/
theorem C4_over100_counterexample :
    downloadProgressEvents "T" ["[download] 150.0% of 1MiB"] =
      [⟨"T", "download", "downloading", 150, ""⟩] ∧
    ¬ ((150 : ℚ) ≤ 100) := by
  have hd1 : digitsVal ['1', '5', '0'] = 150 := by decide
  have hd2 : digitsVal ['0'] = 0 := by decide
  have h1 : parseProgress "[download] 150.0% of 1MiB" =
      1 * ((digitsVal ['1', '5', '0'] : ℚ) + (digitsVal ['0'] : ℚ) / 10 ^ 1) := rfl
  rw [hd1, hd2] at h1
  have hp : parseProgress "[download] 150.0% of 1MiB" = 150 := by
    rw [h1]
    norm_num
  have hc : (containsSub "[download] 150.0% of 1MiB".toList "[download]".toList &&
      "[download] 150.0% of 1MiB".toList.contains '%') = true := by decide
  have hev : downloadLineEvents "T" "[download] 150.0% of 1MiB" =
      [⟨"T", "download", "downloading", 150, ""⟩] := by
    unfold downloadLineEvents
    rw [if_pos hc]
    simp only
    rw [hp]
    rw [if_pos (by norm_num : (150 : ℚ) ≥ 0)]
  constructor
  · unfold downloadProgressEvents
    simp [hev]
  · norm_num
